import Mathlib

/-!
Shallow embedding of the Travix `go-metrics` package (`Metrics.go`) and proofs
about its specification.  Pools are modelled as association lists from the
string key `subsystem ++ "/" ++ name` to model values; backend instruments get
unique numeric identities drawn from a `nextId` counter; every backend
registration call is appended to a `regLog`, and every non-fatal registration
warning to `warnings`.  Whether a given backend registration would fail is an
explicit boolean parameter `regFails` of each call.  Durations are integers
(nanoseconds, as Go's `time.Duration`), observation values are rationals.
-/

namespace GoMetrics

abbrev Key := String

/-- The pool key built by `fmt.Sprintf("%s/%s", subsystem, name)`. -/
def metricKey (subsystem name : String) : Key :=
  subsystem ++ "/" ++ name

section AssocHelpers

variable {κ α : Type} [DecidableEq κ]

/-- Go map read `m[k]` (with `none` for the missing / zero-value case). -/
def lookupKey (k : κ) : List (κ × α) → Option α
  | [] => none
  | (k', v) :: rest => if k' = k then some v else lookupKey k rest

/-- Go map assignment `m[k] = v`: replace the entry if present, append otherwise. -/
def setKey (k : κ) (v : α) : List (κ × α) → List (κ × α)
  | [] => [(k, v)]
  | (k', v') :: rest => if k' = k then (k', v) :: rest else (k', v') :: setKey k v rest

/-- Mutation of the instrument object stored under `k` (e.g. `counter.Inc()`). -/
def updateKey (k : κ) (f : α → α) : List (κ × α) → List (κ × α)
  | [] => []
  | (k', v) :: rest => if k' = k then (k', f v) :: rest else (k', v) :: updateKey k f rest

end AssocHelpers

/-- The seven instrument pools of a `Metrics` value. -/
inductive PoolKind
  | counters
  | counterVecs
  | gauges
  | summaries
  | summaryVecs
  | histograms
  | histogramVecs
deriving DecidableEq

/-- One backend registration call: which pool the instrument was created for,
the pool key, the `Name` field passed to the backend options, and whether the
call went through the fatal `prometheus.MustRegister` path. -/
structure RegEvent where
  pool : PoolKind
  key : Key
  name : String
  fatal : Bool
deriving DecidableEq

/-- A `prometheus.CounterVec`: its identity, its label names, and one
accumulator per label-value tuple (`WithLabelValues`). -/
structure CounterVecState where
  vecId : Nat
  labels : List String
  series : List (List String × ℚ)
deriving DecidableEq

/-- The `Metrics` struct.  Scalar counters and gauges are modelled by their
accumulated value; summaries, histograms and the histogram/summary vectors by
the identity of the backend instrument object stored in the pool. -/
structure MetricsState where
  Namespace : String
  Counters : List (Key × ℚ)
  CounterVecs : List (Key × CounterVecState)
  Summaries : List (Key × Nat)
  SummaryVecs : List (Key × Nat)
  Histograms : List (Key × Nat)
  HistogramVecs : List (Key × Nat)
  Gauges : List (Key × ℚ)
  nextId : Nat
  regLog : List RegEvent
  warnings : List String
deriving DecidableEq

/-- `NewMetrics`: all pools empty. -/
def NewMetrics (ns : String) : MetricsState :=
  { Namespace := ns
    Counters := []
    CounterVecs := []
    Summaries := []
    SummaryVecs := []
    Histograms := []
    HistogramVecs := []
    Gauges := []
    nextId := 0
    regLog := []
    warnings := [] }

/-- Write-lock section of `Count`: re-check the key, and only when still absent
construct the counter, install it and call `prometheus.Register` (non-fatal:
a failure only logs a warning). -/
def countWritePhase (m : MetricsState) (subsystem name help : String) (regFails : Bool) :
    MetricsState :=
  let key := metricKey subsystem name
  match lookupKey key m.Counters with
  | some _ => m
  | none =>
    let m1 := { m with
      Counters := setKey key 0 m.Counters
      regLog := m.regLog ++ [⟨PoolKind.counters, key, name, false⟩] }
    if regFails then
      { m1 with warnings := m1.warnings ++ ["MetricsCounterRegistrationFailed"] }
    else m1

/-- `Count`: double-checked get-or-create of a counter, then `counter.Inc()`. -/
def Count (m : MetricsState) (subsystem name help : String) (regFails : Bool) : MetricsState :=
  let key := metricKey subsystem name
  match lookupKey key m.Counters with
  | some _ => { m with Counters := updateKey key (fun v => v + 1) m.Counters }
  | none =>
    let m1 := countWritePhase m subsystem name help regFails
    { m1 with Counters := updateKey key (fun v => v + 1) m1.Counters }

/-- Write-lock section of `IncreaseCounter` (same shape as `countWritePhase`,
with its own warning code). -/
def increaseCounterWritePhase (m : MetricsState) (subsystem name help : String)
    (regFails : Bool) : MetricsState :=
  let key := metricKey subsystem name
  match lookupKey key m.Counters with
  | some _ => m
  | none =>
    let m1 := { m with
      Counters := setKey key 0 m.Counters
      regLog := m.regLog ++ [⟨PoolKind.counters, key, name, false⟩] }
    if regFails then
      { m1 with warnings := m1.warnings ++ ["MetricsIncreaseCounterRegistrationFailed"] }
    else m1

/-- `IncreaseCounter`: get-or-create, then `counter.Add(float64(increment))`. -/
def IncreaseCounter (m : MetricsState) (subsystem name help : String) (increment : Int)
    (regFails : Bool) : MetricsState :=
  let key := metricKey subsystem name
  match lookupKey key m.Counters with
  | some _ => { m with Counters := updateKey key (fun v => v + (increment : ℚ)) m.Counters }
  | none =>
    let m1 := increaseCounterWritePhase m subsystem name help regFails
    { m1 with Counters := updateKey key (fun v => v + (increment : ℚ)) m1.Counters }

/-- Write-lock section of `SetGauge`: re-check, construct, install, non-fatal
`prometheus.Register`. -/
def setGaugeWritePhase (m : MetricsState) (subsystem name help : String) (regFails : Bool) :
    MetricsState :=
  let key := metricKey subsystem name
  match lookupKey key m.Gauges with
  | some _ => m
  | none =>
    let m1 := { m with
      Gauges := setKey key 0 m.Gauges
      regLog := m.regLog ++ [⟨PoolKind.gauges, key, name, false⟩] }
    if regFails then
      { m1 with warnings := m1.warnings ++ ["MetricsSetGaugeFailed"] }
    else m1

/-- `SetGauge`: get-or-create of a gauge, then `gauge.Set(value)` on every call. -/
def SetGauge (m : MetricsState) (value : ℚ) (subsystem name help : String) (regFails : Bool) :
    MetricsState :=
  let key := metricKey subsystem name
  match lookupKey key m.Gauges with
  | some _ => { m with Gauges := updateKey key (fun _ => value) m.Gauges }
  | none =>
    let m1 := setGaugeWritePhase m subsystem name help regFails
    { m1 with Gauges := updateKey key (fun _ => value) m1.Gauges }

/-- `WithLabelValues(values...).Inc()`: a fresh label-value tuple starts a new
series at 0 and increments it, an existing one is incremented. -/
def incSeries (values : List String) : List (List String × ℚ) → List (List String × ℚ)
  | [] => [(values, 1)]
  | (v, c) :: rest =>
    if v = values then (v, c + 1) :: rest else (v, c) :: incSeries values rest

/-- Write-lock section of `CountLabels`: re-check, construct the vector with the
given label names, install, non-fatal `prometheus.Register`. -/
def countLabelsWritePhase (m : MetricsState) (subsystem name help : String)
    (labels : List String) (regFails : Bool) : MetricsState :=
  let key := metricKey subsystem name
  match lookupKey key m.CounterVecs with
  | some _ => m
  | none =>
    let vec : CounterVecState := ⟨m.nextId, labels, []⟩
    let m1 := { m with
      CounterVecs := setKey key vec m.CounterVecs
      nextId := m.nextId + 1
      regLog := m.regLog ++ [⟨PoolKind.counterVecs, key, name, false⟩] }
    if regFails then
      { m1 with warnings := m1.warnings ++ ["MetricsCounterLabelRegistrationFailed"] }
    else m1

/-- `CountLabels`: get-or-create of the shared counter vector keyed only on
(subsystem, name), then `counter.WithLabelValues(values...).Inc()`. -/
def CountLabels (m : MetricsState) (subsystem name help : String) (labels values : List String)
    (regFails : Bool) : MetricsState :=
  let key := metricKey subsystem name
  let m1 :=
    match lookupKey key m.CounterVecs with
    | some _ => m
    | none => countLabelsWritePhase m subsystem name help labels regFails
  { m1 with
    CounterVecs :=
      updateKey key (fun vec => { vec with series := incSeries values vec.series })
        m1.CounterVecs }

/-- The handle combining a histogram and its shadow summary.  The two fields are
interface values in Go and hence nilable: `none` models `nil`. -/
structure MetricsHistogram where
  Key : String
  hist : Option Nat
  sum : Option Nat
deriving DecidableEq

/-- `prometheus.DefBuckets`. -/
def DefBuckets : List ℚ :=
  [5/1000, 1/100, 25/1000, 5/100, 1/10, 25/100, 1/2, 1, 5/2, 5, 10]

/-- `DefaultObjectives`, as (quantile, error-tolerance) pairs. -/
def DefaultObjectives : List (ℚ × ℚ) :=
  [(1/2, 5/100), (3/4, 25/1000), (9/10, 1/100), (95/100, 5/1000),
   (99/100, 1/1000), (999/1000, 1/10000)]

/-- Write-lock section of `addHistogramWithBuckets`: re-check the summary pool;
when still absent, build the summary under the backend name
`name ++ "_summary"`, `MustRegister` it (`regFailsSum`: a failure panics before
the summary is installed), install it, then build the histogram under `name`,
`MustRegister` it (`regFailsHist`: an independent outcome — a failure here
panics with the summary already installed and the histogram absent), and
install it.  `hist0` is the local `hist` variable as read before the write
lock; the skip branch leaves it untouched.  The first component is the registry
state the call leaves behind, also when it panics; the second is the panic
marker or the local `(sum, hist)` pair. -/
def addHistogramWritePhase (m : MetricsState) (subsystem name help : String)
    (buckets : List ℚ) (hist0 : Option Nat) (regFailsSum regFailsHist : Bool) :
    MetricsState × Except Unit (Option Nat × Option Nat) :=
  let key := metricKey subsystem name
  match lookupKey key m.Summaries with
  | some s => (m, .ok (some s, hist0))
  | none =>
    if regFailsSum then (m, .error ())
    else
      let sumId := m.nextId
      let m1 : MetricsState := { m with
        nextId := m.nextId + 1
        regLog := m.regLog ++ [⟨PoolKind.summaries, key, name ++ "_summary", true⟩]
        Summaries := setKey key sumId m.Summaries }
      if regFailsHist then (m1, .error ())
      else
        let histId := m1.nextId
        let m2 : MetricsState := { m1 with
          nextId := m1.nextId + 1
          regLog := m1.regLog ++ [⟨PoolKind.histograms, key, name, true⟩]
          Histograms := setKey key histId m1.Histograms }
        (m2, .ok (some sumId, some histId))

/-- `addHistogramWithBuckets`: read phase (summary presence decides, the
histogram is read without its own presence check), then the write phase when
absent, then the `MetricsHistogram` handle built from the local variables.
The state left behind is returned also when one of the two registrations
panics. -/
def addHistogramWithBuckets (m : MetricsState) (subsystem name help : String)
    (buckets : List ℚ) (regFailsSum regFailsHist : Bool) :
    MetricsState × Except Unit MetricsHistogram :=
  let key := metricKey subsystem name
  let sum0 := lookupKey key m.Summaries
  let hist0 := lookupKey key m.Histograms
  match sum0 with
  | some s => (m, .ok (⟨key, hist0, some s⟩ : MetricsHistogram))
  | none =>
    let r := addHistogramWritePhase m subsystem name help buckets hist0
      regFailsSum regFailsHist
    (r.1, r.2.map (fun sh => (⟨key, sh.2, sh.1⟩ : MetricsHistogram)))

/-- `AddHistogram` uses the default prometheus buckets. -/
def AddHistogram (m : MetricsState) (subsystem name help : String)
    (regFailsSum regFailsHist : Bool) : MetricsState × Except Unit MetricsHistogram :=
  addHistogramWithBuckets m subsystem name help DefBuckets regFailsSum regFailsHist

/-- `AddHistogramWithCustomBuckets`. -/
def AddHistogramWithCustomBuckets (m : MetricsState) (subsystem name help : String)
    (buckets : List ℚ) (regFailsSum regFailsHist : Bool) :
    MetricsState × Except Unit MetricsHistogram :=
  addHistogramWithBuckets m subsystem name help buckets regFailsSum regFailsHist

/-- The `HistogramVec` handle: key, label names, the bound label-value tuple and
the shared backend vector. -/
structure HistogramVec where
  Key : String
  Labels : List String
  LabelValues : List String
  histVec : Nat
deriving DecidableEq

/-- Write-lock section of `addHistogramVecWithBuckets`.  Unlike the scalar
kinds there is no re-check of the key under the write lock: the section
constructs, `MustRegister`s (fatal on failure) and installs unconditionally. -/
def addHistogramVecWritePhase (m : MetricsState) (subsystem name help : String)
    (labels : List String) (buckets : List ℚ) (regFails : Bool) :
    Except Unit (MetricsState × Nat) :=
  let key := metricKey subsystem name
  if regFails then .error ()
  else
    let vecId := m.nextId
    .ok ({ m with
      nextId := m.nextId + 1
      regLog := m.regLog ++ [⟨PoolKind.histogramVecs, key, name, true⟩]
      HistogramVecs := setKey key vecId m.HistogramVecs }, vecId)

/-- `addHistogramVecWithBuckets`: read phase, write phase when absent, handle. -/
def addHistogramVecWithBuckets (m : MetricsState) (subsystem name help : String)
    (labels labelValues : List String) (buckets : List ℚ) (regFails : Bool) :
    Except Unit (MetricsState × HistogramVec) :=
  let key := metricKey subsystem name
  match lookupKey key m.HistogramVecs with
  | some vec => .ok (m, ⟨key, labels, labelValues, vec⟩)
  | none =>
    match addHistogramVecWritePhase m subsystem name help labels buckets regFails with
    | .error e => .error e
    | .ok (m1, vecId) => .ok (m1, ⟨key, labels, labelValues, vecId⟩)

/-- `AddHistogramVec` uses the default prometheus buckets. -/
def AddHistogramVec (m : MetricsState) (subsystem name help : String)
    (labels labelValues : List String) (regFails : Bool) :
    Except Unit (MetricsState × HistogramVec) :=
  addHistogramVecWithBuckets m subsystem name help labels labelValues DefBuckets regFails

/-- The `SummaryVec` handle. -/
structure SummaryVec where
  Key : String
  Labels : List String
  LabelValues : List String
  summaryVec : Nat
deriving DecidableEq

/-- Write-lock section of `addSummaryVecWithObjectives`: again no re-check; the
vector is built under the backend name `name ++ "_summary"`, `MustRegister`ed
(fatal on failure) and installed unconditionally. -/
def addSummaryVecWritePhase (m : MetricsState) (subsystem name help : String)
    (labels : List String) (objectives : List (ℚ × ℚ)) (regFails : Bool) :
    Except Unit (MetricsState × Nat) :=
  let key := metricKey subsystem name
  if regFails then .error ()
  else
    let vecId := m.nextId
    .ok ({ m with
      nextId := m.nextId + 1
      regLog := m.regLog ++ [⟨PoolKind.summaryVecs, key, name ++ "_summary", true⟩]
      SummaryVecs := setKey key vecId m.SummaryVecs }, vecId)

/-- `addSummaryVecWithObjectives`: read phase, write phase when absent, handle. -/
def addSummaryVecWithObjectives (m : MetricsState) (subsystem name help : String)
    (labels labelValues : List String) (objectives : List (ℚ × ℚ)) (regFails : Bool) :
    Except Unit (MetricsState × SummaryVec) :=
  let key := metricKey subsystem name
  match lookupKey key m.SummaryVecs with
  | some vec => .ok (m, ⟨key, labels, labelValues, vec⟩)
  | none =>
    match addSummaryVecWritePhase m subsystem name help labels objectives regFails with
    | .error e => .error e
    | .ok (m1, vecId) => .ok (m1, ⟨key, labels, labelValues, vecId⟩)

/-- `AddSummaryVec` uses the default objectives. -/
def AddSummaryVec (m : MetricsState) (subsystem name help : String)
    (labels labelValues : List String) (regFails : Bool) :
    Except Unit (MetricsState × SummaryVec) :=
  addSummaryVecWithObjectives m subsystem name help labels labelValues DefaultObjectives regFails

/-- Go's `Duration.Seconds()`: `float64(d / 1e9) + float64(d % 1e9) / 1e9`,
modelled exactly over the rationals. -/
def Duration.Seconds (d : Int) : ℚ :=
  ((d.tdiv 1000000000 : Int) : ℚ) + ((d.tmod 1000000000 : Int) : ℚ) / 1000000000

/-- Go's `Duration.Truncate(m)`: round toward zero to a multiple of `m`
(`d` unchanged when `m <= 0`).  The result is still a duration in nanoseconds. -/
def Duration.Truncate (d m : Int) : Int :=
  if m ≤ 0 then d else d - d.tmod m

/-- The pair of values a recording method observes: one into the histogram, one
into the shadow summary. -/
structure Observations where
  histObs : ℚ
  sumObs : ℚ
deriving DecidableEq

/-- `MetricsHistogram.RecordTimeElapsed`, as a function of the elapsed duration
`time.Since(start)` in nanoseconds. -/
def MetricsHistogram.RecordTimeElapsed (sinceNs : Int) : Observations :=
  let elapsed := Duration.Seconds sinceNs
  ⟨elapsed, elapsed * 1000⟩

/-- `MetricsHistogram.RecordDuration`, as a function of the elapsed duration in
nanoseconds and the truncation unit: the histogram receives
`float64(since.Truncate(unit))`, the summary `since.Seconds() * 1000`. -/
def MetricsHistogram.RecordDuration (sinceNs unitNs : Int) : Observations :=
  let elapsedSeconds := Duration.Seconds sinceNs
  let elapsedUnits : ℚ := ((Duration.Truncate sinceNs unitNs : Int) : ℚ)
  ⟨elapsedUnits, elapsedSeconds * 1000⟩

/-- One API call of the registry (registrations assumed to succeed). -/
inductive Op
  | count (subsystem name help : String)
  | increaseCounter (subsystem name help : String) (increment : Int)
  | setGauge (value : ℚ) (subsystem name help : String)
  | countLabels (subsystem name help : String) (labels values : List String)
  | addHistogram (subsystem name help : String) (buckets : List ℚ)
  | addHistogramVec (subsystem name help : String) (labels labelValues : List String)
      (buckets : List ℚ)
  | addSummaryVec (subsystem name help : String) (labels labelValues : List String)
      (objectives : List (ℚ × ℚ))

/-- Sequential interpretation of one call on the registry state. -/
def runOp (m : MetricsState) : Op → MetricsState
  | .count s n h => Count m s n h false
  | .increaseCounter s n h i => IncreaseCounter m s n h i false
  | .setGauge v s n h => SetGauge m v s n h false
  | .countLabels s n h ls vs => CountLabels m s n h ls vs false
  | .addHistogram s n h b => (addHistogramWithBuckets m s n h b false false).1
  | .addHistogramVec s n h ls lvs b =>
    match addHistogramVecWithBuckets m s n h ls lvs b false with
    | .ok x => x.1
    | .error _ => m
  | .addSummaryVec s n h ls lvs os =>
    match addSummaryVecWithObjectives m s n h ls lvs os false with
    | .ok x => x.1
    | .error _ => m

/-- Sequential interpretation of a call sequence. -/
def runOps (m : MetricsState) (ops : List Op) : MetricsState :=
  ops.foldl runOp m

/-- Number of backend registration calls made for a given pool and key. -/
def regCount (log : List RegEvent) (p : PoolKind) (k : Key) : Nat :=
  (log.filter (fun e => decide (e.pool = p ∧ e.key = k))).length

/-- Whether the pool of the given kind holds the given key. -/
def poolHas (m : MetricsState) (p : PoolKind) (k : Key) : Bool :=
  match p with
  | .counters => (lookupKey k m.Counters).isSome
  | .counterVecs => (lookupKey k m.CounterVecs).isSome
  | .gauges => (lookupKey k m.Gauges).isSome
  | .summaries => (lookupKey k m.Summaries).isSome
  | .summaryVecs => (lookupKey k m.SummaryVecs).isSome
  | .histograms => (lookupKey k m.Histograms).isSome
  | .histogramVecs => (lookupKey k m.HistogramVecs).isSome

/-- Reachability invariant: the registration log holds exactly one event per
(pool, key) present in that pool and none otherwise, and the summary and
histogram pools always hold the same keys. -/
def StateInv (m : MetricsState) : Prop :=
  (∀ p k, regCount m.regLog p k = if poolHas m p k then 1 else 0) ∧
  (∀ k, poolHas m PoolKind.summaries k = poolHas m PoolKind.histograms k)

/-- Modelled from the spec: the histogram observation that the claim about
`RecordDuration` expects — the elapsed time truncated to the caller-selected
unit and then expressed in that unit (so a duration of 1.5 units becomes the
value 1), rather than the raw truncated nanosecond count. -/
def specDurationUnitObs (sinceNs unitNs : Int) : ℚ :=
  ((Duration.Truncate sinceNs unitNs : Int) : ℚ) / (unitNs : ℚ)

/-- A registry state whose histogram-vector pool already holds the key "a/b"
(with its one registration event), as a competing writer would leave it. -/
def histVecPresentState : MetricsState :=
  { NewMetrics "ns" with
    HistogramVecs := [("a/b", 0)]
    nextId := 1
    regLog := [⟨PoolKind.histogramVecs, "a/b", "b", true⟩] }

/-- The registry state after `AddHistogram "s1" "n1"` on a fresh registry. -/
def pairedWitnessState : MetricsState :=
  { NewMetrics "ns" with
    Summaries := [("s1/n1", 0)]
    Histograms := [("s1/n1", 1)]
    nextId := 2
    regLog := [⟨PoolKind.summaries, "s1/n1", "n1_summary", true⟩,
               ⟨PoolKind.histograms, "s1/n1", "n1", true⟩] }

/-- The handle returned by `AddHistogram "s1" "n1"` on a fresh registry. -/
def pairedWitnessHandle : MetricsHistogram := ⟨"s1/n1", some 1, some 0⟩

/-- A registry state whose four re-checking pools all hold the key "a/b". -/
def recheckWitnessState : MetricsState :=
  { NewMetrics "ns" with
    Counters := [("a/b", 1)]
    Gauges := [("a/b", 1)]
    CounterVecs := [("a/b", ⟨0, [], []⟩)]
    Summaries := [("a/b", 1)] }

section AssocLemmas

variable {κ α : Type} [DecidableEq κ]

theorem lookupKey_setKey_self (k : κ) (v : α) (l : List (κ × α)) :
    lookupKey k (setKey k v l) = some v := by
  induction l with
  | nil => simp [setKey, lookupKey]
  | cons hd tl ih =>
    obtain ⟨k', v'⟩ := hd
    by_cases h : k' = k
    · simp [setKey, lookupKey, h]
    · simp [setKey, lookupKey, h, ih]

theorem lookupKey_setKey_ne (k k' : κ) (v : α) (l : List (κ × α)) (h : k' ≠ k) :
    lookupKey k' (setKey k v l) = lookupKey k' l := by
  induction l with
  | nil => simp [setKey, lookupKey, Ne.symm h]
  | cons hd tl ih =>
    obtain ⟨k'', v'⟩ := hd
    by_cases hk : k'' = k
    · subst hk
      simp [setKey, lookupKey, Ne.symm h]
    · simp only [setKey, if_neg hk, lookupKey]
      by_cases hk' : k'' = k'
      · simp [lookupKey, hk']
      · simp [lookupKey, hk', ih]

theorem lookupKey_updateKey_self (k : κ) (f : α → α) (l : List (κ × α)) :
    lookupKey k (updateKey k f l) = (lookupKey k l).map f := by
  induction l with
  | nil => simp [updateKey, lookupKey]
  | cons hd tl ih =>
    obtain ⟨k', v⟩ := hd
    by_cases h : k' = k
    · simp [updateKey, lookupKey, h]
    · simp [updateKey, lookupKey, h, ih]

theorem lookupKey_updateKey_ne (k k' : κ) (f : α → α) (l : List (κ × α)) (h : k' ≠ k) :
    lookupKey k' (updateKey k f l) = lookupKey k' l := by
  induction l with
  | nil => simp [updateKey, lookupKey]
  | cons hd tl ih =>
    obtain ⟨k'', v⟩ := hd
    by_cases hk : k'' = k
    · subst hk
      simp [updateKey, lookupKey, Ne.symm h]
    · simp only [updateKey, if_neg hk, lookupKey]
      by_cases hk' : k'' = k'
      · simp [lookupKey, hk']
      · simp [lookupKey, hk', ih]

theorem isSome_lookupKey_updateKey (k k' : κ) (f : α → α) (l : List (κ × α)) :
    (lookupKey k' (updateKey k f l)).isSome = (lookupKey k' l).isSome := by
  by_cases h : k' = k
  · subst h
    rw [lookupKey_updateKey_self]
    cases lookupKey k' l <;> simp
  · rw [lookupKey_updateKey_ne _ _ _ _ h]

theorem length_updateKey (k : κ) (f : α → α) (l : List (κ × α)) :
    (updateKey k f l).length = l.length := by
  induction l with
  | nil => simp [updateKey]
  | cons hd tl ih =>
    obtain ⟨k', v⟩ := hd
    by_cases h : k' = k <;> simp [updateKey, h, ih]

theorem length_setKey (k : κ) (v : α) (l : List (κ × α)) :
    (setKey k v l).length =
      if (lookupKey k l).isSome then l.length else l.length + 1 := by
  induction l with
  | nil => simp [setKey, lookupKey]
  | cons hd tl ih =>
    obtain ⟨k', v'⟩ := hd
    by_cases h : k' = k
    · simp [setKey, lookupKey, h]
    · simp only [setKey, if_neg h, List.length_cons, lookupKey, ih]
      by_cases hs : (lookupKey k tl : Option α).isSome <;> simp [hs]

end AssocLemmas

theorem regCount_append (log : List RegEvent) (e : RegEvent) (p : PoolKind) (k : Key) :
    regCount (log ++ [e]) p k =
      regCount log p k + (if e.pool = p ∧ e.key = k then 1 else 0) := by
  by_cases h : e.pool = p ∧ e.key = k <;>
    simp [regCount, List.filter_append, h]

/-- Adding one registration event for a key that was freshly inserted into its
pool preserves the registration-count component of the invariant. -/
theorem regInvStep (m m' : MetricsState) (p0 : PoolKind) (k0 : Key) (nm : String) (ft : Bool)
    (hlog : m'.regLog = m.regLog ++ [⟨p0, k0, nm, ft⟩])
    (hnew : poolHas m' p0 k0 = true) (hold : poolHas m p0 k0 = false)
    (hsame : ∀ p k, ¬(p = p0 ∧ k = k0) → poolHas m' p k = poolHas m p k)
    (hm : ∀ p k, regCount m.regLog p k = if poolHas m p k then 1 else 0) :
    ∀ p k, regCount m'.regLog p k = if poolHas m' p k then 1 else 0 := by
  intro p k
  rw [hlog, regCount_append]
  by_cases hpk : p = p0 ∧ k = k0
  · obtain ⟨rfl, rfl⟩ := hpk
    simp [hnew, hm p k, hold]
  · rw [hsame p k hpk, hm p k]
    have hcond : ¬((⟨p0, k0, nm, ft⟩ : RegEvent).pool = p ∧ (⟨p0, k0, nm, ft⟩ : RegEvent).key = k) := by
      simp only [not_and] at hpk ⊢
      intro h1 h2
      exact hpk h1.symm h2.symm
    simp [hcond]

/-- Transfer of the invariant between states with equal logs and pools. -/
theorem stateInv_of_same (m m' : MetricsState) (hlog : m'.regLog = m.regLog)
    (hhas : ∀ p k, poolHas m' p k = poolHas m p k) (hm : StateInv m) : StateInv m' := by
  obtain ⟨h1, h2⟩ := hm
  refine ⟨fun p k => ?_, fun k => ?_⟩
  · rw [hlog, hhas]
    exact h1 p k
  · rw [hhas, hhas]
    exact h2 k

/-- `Count` preserves the invariant. -/
theorem stateInv_Count (m : MetricsState) (s n h : String) (hm : StateInv m) :
    StateInv (Count m s n h false) := by
  cases hl : (lookupKey (metricKey s n) m.Counters) with
  | some c =>
    refine stateInv_of_same m _ ?_ ?_ hm
    · simp [Count, hl]
    · intro p k
      cases p <;> simp [Count, hl, poolHas, isSome_lookupKey_updateKey]
  | none =>
    have heq : Count m s n h false =
        { m with
          Counters := updateKey (metricKey s n) (fun v => v + 1)
              (setKey (metricKey s n) 0 m.Counters)
          regLog := m.regLog ++ [⟨PoolKind.counters, metricKey s n, n, false⟩] } := by
      simp [Count, countWritePhase, hl]
    rw [heq]
    have hold : poolHas m PoolKind.counters (metricKey s n) = false := by
      simp [poolHas, hl]
    constructor
    · refine regInvStep m _ PoolKind.counters (metricKey s n) n false rfl ?_ hold ?_ hm.1
      · simp [poolHas, isSome_lookupKey_updateKey, lookupKey_setKey_self]
      · intro p k hpk
        cases p with
        | counters =>
          have hk : k ≠ metricKey s n := fun hke => hpk ⟨rfl, hke⟩
          simp [poolHas, isSome_lookupKey_updateKey, lookupKey_setKey_ne _ _ _ _ hk]
        | counterVecs => rfl
        | gauges => rfl
        | summaries => rfl
        | summaryVecs => rfl
        | histograms => rfl
        | histogramVecs => rfl
    · intro k
      exact hm.2 k

/-- `IncreaseCounter` preserves the invariant. -/
theorem stateInv_IncreaseCounter (m : MetricsState) (s n h : String) (i : Int)
    (hm : StateInv m) : StateInv (IncreaseCounter m s n h i false) := by
  cases hl : (lookupKey (metricKey s n) m.Counters) with
  | some c =>
    refine stateInv_of_same m _ ?_ ?_ hm
    · simp [IncreaseCounter, hl]
    · intro p k
      cases p <;> simp [IncreaseCounter, hl, poolHas, isSome_lookupKey_updateKey]
  | none =>
    have heq : IncreaseCounter m s n h i false =
        { m with
          Counters := updateKey (metricKey s n) (fun v => v + (i : ℚ))
              (setKey (metricKey s n) 0 m.Counters)
          regLog := m.regLog ++ [⟨PoolKind.counters, metricKey s n, n, false⟩] } := by
      simp [IncreaseCounter, increaseCounterWritePhase, hl]
    rw [heq]
    have hold : poolHas m PoolKind.counters (metricKey s n) = false := by
      simp [poolHas, hl]
    constructor
    · refine regInvStep m _ PoolKind.counters (metricKey s n) n false rfl ?_ hold ?_ hm.1
      · simp [poolHas, isSome_lookupKey_updateKey, lookupKey_setKey_self]
      · intro p k hpk
        cases p with
        | counters =>
          have hk : k ≠ metricKey s n := fun hke => hpk ⟨rfl, hke⟩
          simp [poolHas, isSome_lookupKey_updateKey, lookupKey_setKey_ne _ _ _ _ hk]
        | counterVecs => rfl
        | gauges => rfl
        | summaries => rfl
        | summaryVecs => rfl
        | histograms => rfl
        | histogramVecs => rfl
    · intro k
      exact hm.2 k

/-- `SetGauge` preserves the invariant. -/
theorem stateInv_SetGauge (m : MetricsState) (v : ℚ) (s n h : String) (hm : StateInv m) :
    StateInv (SetGauge m v s n h false) := by
  cases hl : (lookupKey (metricKey s n) m.Gauges) with
  | some c =>
    refine stateInv_of_same m _ ?_ ?_ hm
    · simp [SetGauge, hl]
    · intro p k
      cases p <;> simp [SetGauge, hl, poolHas, isSome_lookupKey_updateKey]
  | none =>
    have heq : SetGauge m v s n h false =
        { m with
          Gauges := updateKey (metricKey s n) (fun _ => v)
              (setKey (metricKey s n) 0 m.Gauges)
          regLog := m.regLog ++ [⟨PoolKind.gauges, metricKey s n, n, false⟩] } := by
      simp [SetGauge, setGaugeWritePhase, hl]
    rw [heq]
    have hold : poolHas m PoolKind.gauges (metricKey s n) = false := by
      simp [poolHas, hl]
    constructor
    · refine regInvStep m _ PoolKind.gauges (metricKey s n) n false rfl ?_ hold ?_ hm.1
      · simp [poolHas, isSome_lookupKey_updateKey, lookupKey_setKey_self]
      · intro p k hpk
        cases p with
        | gauges =>
          have hk : k ≠ metricKey s n := fun hke => hpk ⟨rfl, hke⟩
          simp [poolHas, isSome_lookupKey_updateKey, lookupKey_setKey_ne _ _ _ _ hk]
        | counters => rfl
        | counterVecs => rfl
        | summaries => rfl
        | summaryVecs => rfl
        | histograms => rfl
        | histogramVecs => rfl
    · intro k
      exact hm.2 k

/-- `CountLabels` preserves the invariant. -/
theorem stateInv_CountLabels (m : MetricsState) (s n h : String) (ls vs : List String)
    (hm : StateInv m) : StateInv (CountLabels m s n h ls vs false) := by
  cases hl : (lookupKey (metricKey s n) m.CounterVecs) with
  | some c =>
    refine stateInv_of_same m _ ?_ ?_ hm
    · simp [CountLabels, hl]
    · intro p k
      cases p <;> simp [CountLabels, hl, poolHas, isSome_lookupKey_updateKey]
  | none =>
    have heq : CountLabels m s n h ls vs false =
        { m with
          CounterVecs := updateKey (metricKey s n)
              (fun vec => { vec with series := incSeries vs vec.series })
              (setKey (metricKey s n) ⟨m.nextId, ls, []⟩ m.CounterVecs)
          nextId := m.nextId + 1
          regLog := m.regLog ++ [⟨PoolKind.counterVecs, metricKey s n, n, false⟩] } := by
      simp [CountLabels, countLabelsWritePhase, hl]
    rw [heq]
    have hold : poolHas m PoolKind.counterVecs (metricKey s n) = false := by
      simp [poolHas, hl]
    constructor
    · refine regInvStep m _ PoolKind.counterVecs (metricKey s n) n false rfl ?_ hold ?_ hm.1
      · simp [poolHas, isSome_lookupKey_updateKey, lookupKey_setKey_self]
      · intro p k hpk
        cases p with
        | counterVecs =>
          have hk : k ≠ metricKey s n := fun hke => hpk ⟨rfl, hke⟩
          simp [poolHas, isSome_lookupKey_updateKey, lookupKey_setKey_ne _ _ _ _ hk]
        | counters => rfl
        | gauges => rfl
        | summaries => rfl
        | summaryVecs => rfl
        | histograms => rfl
        | histogramVecs => rfl
    · intro k
      exact hm.2 k

/-- `addHistogramWithBuckets` (with succeeding registration, as run by `runOp`)
preserves the invariant. -/
theorem stateInv_addHistogram (m : MetricsState) (s n h : String) (b : List ℚ)
    (hm : StateInv m) : StateInv (runOp m (Op.addHistogram s n h b)) := by
  cases hl : (lookupKey (metricKey s n) m.Summaries) with
  | some c =>
    have heq : runOp m (Op.addHistogram s n h b) = m := by
      simp [runOp, addHistogramWithBuckets, addHistogramWritePhase, hl]
    rw [heq]
    exact hm
  | none =>
    have heq : runOp m (Op.addHistogram s n h b) =
        { m with
          Summaries := setKey (metricKey s n) m.nextId m.Summaries
          Histograms := setKey (metricKey s n) (m.nextId + 1) m.Histograms
          nextId := m.nextId + 1 + 1
          regLog := m.regLog ++
            [⟨PoolKind.summaries, metricKey s n, n ++ "_summary", true⟩,
             ⟨PoolKind.histograms, metricKey s n, n, true⟩] } := by
      simp [runOp, addHistogramWithBuckets, addHistogramWritePhase, hl]
    rw [heq]
    have holdS : poolHas m PoolKind.summaries (metricKey s n) = false := by
      simp [poolHas, hl]
    have holdH : poolHas m PoolKind.histograms (metricKey s n) = false := by
      rw [← hm.2]
      exact holdS
    constructor
    · intro p k
      have hmid : ∀ p' k', regCount
          ({ m with
             Summaries := setKey (metricKey s n) m.nextId m.Summaries
             nextId := m.nextId + 1
             regLog := m.regLog ++
               [⟨PoolKind.summaries, metricKey s n, n ++ "_summary", true⟩] } :
              MetricsState).regLog p' k' =
          if poolHas { m with
             Summaries := setKey (metricKey s n) m.nextId m.Summaries
             nextId := m.nextId + 1
             regLog := m.regLog ++
               [⟨PoolKind.summaries, metricKey s n, n ++ "_summary", true⟩] } p' k'
          then 1 else 0 := by
        refine regInvStep m _ PoolKind.summaries (metricKey s n) (n ++ "_summary") true
          rfl ?_ holdS ?_ hm.1
        · simp [poolHas, lookupKey_setKey_self]
        · intro p' k' hpk
          cases p' with
          | summaries =>
            have hk : k' ≠ metricKey s n := fun hke => hpk ⟨rfl, hke⟩
            simp [poolHas, lookupKey_setKey_ne _ _ _ _ hk]
          | counters => rfl
          | counterVecs => rfl
          | gauges => rfl
          | summaryVecs => rfl
          | histograms => rfl
          | histogramVecs => rfl
      have hstep := regInvStep
        ({ m with
           Summaries := setKey (metricKey s n) m.nextId m.Summaries
           nextId := m.nextId + 1
           regLog := m.regLog ++
             [⟨PoolKind.summaries, metricKey s n, n ++ "_summary", true⟩] })
        ({ m with
           Summaries := setKey (metricKey s n) m.nextId m.Summaries
           Histograms := setKey (metricKey s n) (m.nextId + 1) m.Histograms
           nextId := m.nextId + 1 + 1
           regLog := m.regLog ++
             [⟨PoolKind.summaries, metricKey s n, n ++ "_summary", true⟩,
              ⟨PoolKind.histograms, metricKey s n, n, true⟩] })
        PoolKind.histograms (metricKey s n) n true ?_ ?_ ?_ ?_ hmid
      · exact hstep p k
      · simp
      · simp [poolHas, lookupKey_setKey_self]
      · exact holdH
      · intro p' k' hpk
        cases p' with
        | histograms =>
          have hk : k' ≠ metricKey s n := fun hke => hpk ⟨rfl, hke⟩
          simp [poolHas, lookupKey_setKey_ne _ _ _ _ hk]
        | counters => rfl
        | counterVecs => rfl
        | gauges => rfl
        | summaries => rfl
        | summaryVecs => rfl
        | histogramVecs => rfl
    · intro k
      by_cases hk : k = metricKey s n
      · subst hk
        simp [poolHas, lookupKey_setKey_self]
      · have := hm.2 k
        simpa [poolHas, lookupKey_setKey_ne _ _ _ _ hk] using this

/-- `addHistogramVecWithBuckets` (via `runOp`) preserves the invariant. -/
theorem stateInv_addHistogramVec (m : MetricsState) (s n h : String)
    (ls lvs : List String) (b : List ℚ) (hm : StateInv m) :
    StateInv (runOp m (Op.addHistogramVec s n h ls lvs b)) := by
  cases hl : (lookupKey (metricKey s n) m.HistogramVecs) with
  | some c =>
    have heq : runOp m (Op.addHistogramVec s n h ls lvs b) = m := by
      simp [runOp, addHistogramVecWithBuckets, hl]
    rw [heq]
    exact hm
  | none =>
    have heq : runOp m (Op.addHistogramVec s n h ls lvs b) =
        { m with
          HistogramVecs := setKey (metricKey s n) m.nextId m.HistogramVecs
          nextId := m.nextId + 1
          regLog := m.regLog ++ [⟨PoolKind.histogramVecs, metricKey s n, n, true⟩] } := by
      simp [runOp, addHistogramVecWithBuckets, addHistogramVecWritePhase, hl]
    rw [heq]
    have hold : poolHas m PoolKind.histogramVecs (metricKey s n) = false := by
      simp [poolHas, hl]
    constructor
    · refine regInvStep m _ PoolKind.histogramVecs (metricKey s n) n true rfl ?_ hold ?_ hm.1
      · simp [poolHas, lookupKey_setKey_self]
      · intro p k hpk
        cases p with
        | histogramVecs =>
          have hk : k ≠ metricKey s n := fun hke => hpk ⟨rfl, hke⟩
          simp [poolHas, lookupKey_setKey_ne _ _ _ _ hk]
        | counters => rfl
        | counterVecs => rfl
        | gauges => rfl
        | summaries => rfl
        | summaryVecs => rfl
        | histograms => rfl
    · intro k
      exact hm.2 k

/-- `addSummaryVecWithObjectives` (via `runOp`) preserves the invariant. -/
theorem stateInv_addSummaryVec (m : MetricsState) (s n h : String)
    (ls lvs : List String) (os : List (ℚ × ℚ)) (hm : StateInv m) :
    StateInv (runOp m (Op.addSummaryVec s n h ls lvs os)) := by
  cases hl : (lookupKey (metricKey s n) m.SummaryVecs) with
  | some c =>
    have heq : runOp m (Op.addSummaryVec s n h ls lvs os) = m := by
      simp [runOp, addSummaryVecWithObjectives, hl]
    rw [heq]
    exact hm
  | none =>
    have heq : runOp m (Op.addSummaryVec s n h ls lvs os) =
        { m with
          SummaryVecs := setKey (metricKey s n) m.nextId m.SummaryVecs
          nextId := m.nextId + 1
          regLog := m.regLog ++
            [⟨PoolKind.summaryVecs, metricKey s n, n ++ "_summary", true⟩] } := by
      simp [runOp, addSummaryVecWithObjectives, addSummaryVecWritePhase, hl]
    rw [heq]
    have hold : poolHas m PoolKind.summaryVecs (metricKey s n) = false := by
      simp [poolHas, hl]
    constructor
    · refine regInvStep m _ PoolKind.summaryVecs (metricKey s n) (n ++ "_summary") true
        rfl ?_ hold ?_ hm.1
      · simp [poolHas, lookupKey_setKey_self]
      · intro p k hpk
        cases p with
        | summaryVecs =>
          have hk : k ≠ metricKey s n := fun hke => hpk ⟨rfl, hke⟩
          simp [poolHas, lookupKey_setKey_ne _ _ _ _ hk]
        | counters => rfl
        | counterVecs => rfl
        | gauges => rfl
        | summaries => rfl
        | histograms => rfl
        | histogramVecs => rfl
    · intro k
      exact hm.2 k

/-- Every single call preserves the invariant. -/
theorem stateInv_runOp (m : MetricsState) (op : Op) (hm : StateInv m) :
    StateInv (runOp m op) := by
  cases op with
  | count s n h => exact stateInv_Count m s n h hm
  | increaseCounter s n h i => exact stateInv_IncreaseCounter m s n h i hm
  | setGauge v s n h => exact stateInv_SetGauge m v s n h hm
  | countLabels s n h ls vs => exact stateInv_CountLabels m s n h ls vs hm
  | addHistogram s n h b => exact stateInv_addHistogram m s n h b hm
  | addHistogramVec s n h ls lvs b => exact stateInv_addHistogramVec m s n h ls lvs b hm
  | addSummaryVec s n h ls lvs os => exact stateInv_addSummaryVec m s n h ls lvs os hm

/-- Every call sequence preserves the invariant. -/
theorem stateInv_runOps (m : MetricsState) (ops : List Op) (hm : StateInv m) :
    StateInv (runOps m ops) := by
  induction ops generalizing m with
  | nil => exact hm
  | cons op rest ih => exact ih _ (stateInv_runOp m op hm)

theorem stateInv_NewMetrics (ns : String) : StateInv (NewMetrics ns) := by
  constructor
  · intro p k
    simp [NewMetrics, regCount, poolHas, lookupKey]
    cases p <;> simp [poolHas, NewMetrics, lookupKey]
  · intro k
    simp [poolHas, NewMetrics, lookupKey]

theorem durationSeconds_eq (d : Int) : Duration.Seconds d = (d : ℚ) / 1000000000 := by
  unfold Duration.Seconds
  have hid := Int.tmod_add_tdiv d 1000000000
  have hq : ((d.tmod 1000000000 : Int) : ℚ) + 1000000000 * ((d.tdiv 1000000000 : Int) : ℚ)
      = (d : ℚ) := by
    exact_mod_cast congrArg (fun z : Int => (z : ℚ)) hid
  field_simp
  linarith

theorem metricKey_inj_left (s1 s2 n : String) (h : s1 ≠ s2) :
    metricKey s1 n ≠ metricKey s2 n := by
  intro he
  apply h
  have hd : (metricKey s1 n).data = (metricKey s2 n).data := congrArg String.data he
  simp only [metricKey, String.data_append] at hd
  exact String.ext (List.append_cancel_right (List.append_cancel_right hd))

theorem metricKey_inj_right (s n1 n2 : String) (h : n1 ≠ n2) :
    metricKey s n1 ≠ metricKey s n2 := by
  intro he
  apply h
  have hd : (metricKey s n1).data = (metricKey s n2).data := congrArg String.data he
  simp only [metricKey, String.data_append] at hd
  exact String.ext (List.append_cancel_left (List.append_cancel_left
    ((List.append_assoc _ _ _).symm.trans (hd.trans (List.append_assoc _ _ _)))))

/-- Claim C4: `RecordTimeElapsed` observes the elapsed time in seconds into the
histogram and exactly that same value multiplied by 1000 (the elapsed time in
milliseconds) into the paired summary — one observation into each, both derived
from the single measured elapsed duration. -/
theorem recordTimeElapsed_dual_unit (sinceNs : Int) :
    (MetricsHistogram.RecordTimeElapsed sinceNs).histObs = (sinceNs : ℚ) / 1000000000 ∧
    (MetricsHistogram.RecordTimeElapsed sinceNs).sumObs =
      (MetricsHistogram.RecordTimeElapsed sinceNs).histObs * 1000 ∧
    (MetricsHistogram.RecordTimeElapsed sinceNs).sumObs = (sinceNs : ℚ) / 1000000 := by
  refine ⟨durationSeconds_eq sinceNs, rfl, ?_⟩
  show Duration.Seconds sinceNs * 1000 = _
  rw [durationSeconds_eq]
  rw [div_mul_eq_mul_div, div_eq_div_iff (by norm_num) (by norm_num)]
  ring

/-- Claim C3 counterexample: at an elapsed time of 1.5 seconds with unit one second,
`RecordDuration` observes 1000000000 (the truncated duration in nanoseconds)
into the histogram, not the value 1 that "truncated to the caller-selected unit
and expressed in that unit" would give. -/
theorem recordDuration_hist_not_in_units :
    (MetricsHistogram.RecordDuration 1500000000 1000000000).histObs = 1000000000 ∧
    specDurationUnitObs 1500000000 1000000000 = 1 ∧
    (MetricsHistogram.RecordDuration 1500000000 1000000000).histObs ≠
      specDurationUnitObs 1500000000 1000000000 := by
  have htr : Duration.Truncate 1500000000 1000000000 = 1000000000 := by decide
  have h1 : (MetricsHistogram.RecordDuration 1500000000 1000000000).histObs = 1000000000 := by
    show ((Duration.Truncate 1500000000 1000000000 : Int) : ℚ) = 1000000000
    rw [htr]
    norm_num
  have h2 : specDurationUnitObs 1500000000 1000000000 = 1 := by
    unfold specDurationUnitObs
    rw [htr]
    norm_num
  refine ⟨h1, h2, ?_⟩
  rw [h1, h2]
  norm_num

/-- Claim C3 amended: for a positive unit, `RecordDuration` observes into the
histogram the elapsed duration rounded toward zero to a multiple of the unit
but still expressed in nanoseconds (the value `unit * (elapsed tdiv unit)`),
and observes the elapsed time in milliseconds into the paired summary. -/
theorem recordDuration_truncated_nanoseconds (sinceNs unitNs : Int) (hu : 0 < unitNs) :
    (MetricsHistogram.RecordDuration sinceNs unitNs).histObs =
      ((unitNs * (sinceNs.tdiv unitNs) : Int) : ℚ) ∧
    (MetricsHistogram.RecordDuration sinceNs unitNs).sumObs = (sinceNs : ℚ) / 1000000 := by
  constructor
  · show ((Duration.Truncate sinceNs unitNs : Int) : ℚ) = _
    have ht : Duration.Truncate sinceNs unitNs = unitNs * sinceNs.tdiv unitNs := by
      unfold Duration.Truncate
      rw [if_neg (not_le.mpr hu)]
      have hid := Int.tmod_add_tdiv sinceNs unitNs
      linarith
    exact_mod_cast congrArg (fun z : Int => (z : ℚ)) ht
  · show Duration.Seconds sinceNs * 1000 = _
    rw [durationSeconds_eq]
    rw [div_mul_eq_mul_div, div_eq_div_iff (by norm_num) (by norm_num)]
    ring

theorem recordDuration_truncated_nanoseconds_witness :
    (0 : Int) < 1000000 ∧
    (MetricsHistogram.RecordDuration 2500000 1000000).histObs =
      ((1000000 * ((2500000 : Int).tdiv 1000000) : Int) : ℚ) ∧
    (MetricsHistogram.RecordDuration 2500000 1000000).sumObs =
      ((2500000 : Int) : ℚ) / 1000000 :=
  ⟨by norm_num,
   (recordDuration_truncated_nanoseconds 2500000 1000000 (by norm_num)).1,
   (recordDuration_truncated_nanoseconds 2500000 1000000 (by norm_num)).2⟩

/-- Claim C5: counter creation is idempotent per key and distinct per key: two
`Count` calls with the same subsystem and name leave one pool entry of value 2;
two calls differing in the subsystem (or in the name) leave two pool entries of
value 1 each. -/
theorem count_idempotent_distinct (ns s n h s2 n2 : String) (hs : s2 ≠ s) (hn : n2 ≠ n) :
    ((Count (Count (NewMetrics ns) s n h false) s n h false).Counters.length = 1 ∧
      lookupKey (metricKey s n)
        (Count (Count (NewMetrics ns) s n h false) s n h false).Counters = some 2) ∧
    ((Count (Count (NewMetrics ns) s n h false) s2 n h false).Counters.length = 2 ∧
      lookupKey (metricKey s n)
        (Count (Count (NewMetrics ns) s n h false) s2 n h false).Counters = some 1 ∧
      lookupKey (metricKey s2 n)
        (Count (Count (NewMetrics ns) s n h false) s2 n h false).Counters = some 1) ∧
    ((Count (Count (NewMetrics ns) s n h false) s n2 h false).Counters.length = 2 ∧
      lookupKey (metricKey s n)
        (Count (Count (NewMetrics ns) s n h false) s n2 h false).Counters = some 1 ∧
      lookupKey (metricKey s n2)
        (Count (Count (NewMetrics ns) s n h false) s n2 h false).Counters = some 1) := by
  have hc1 : (Count (NewMetrics ns) s n h false).Counters = [(metricKey s n, 1)] := by
    norm_num [Count, countWritePhase, NewMetrics, lookupKey, setKey, updateKey]
  have hsame : ∀ m : MetricsState, m.Counters = [(metricKey s n, 1)] →
      (Count m s n h false).Counters = [(metricKey s n, 2)] := by
    intro m hm
    norm_num [Count, hm, lookupKey, updateKey]
  have hdiff : ∀ (m : MetricsState) (s' n' : String), m.Counters = [(metricKey s n, 1)] →
      metricKey s' n' ≠ metricKey s n →
      (Count m s' n' h false).Counters = [(metricKey s n, 1), (metricKey s' n', 1)] := by
    intro m s' n' hm hne
    norm_num [Count, countWritePhase, hm, lookupKey, setKey, updateKey, hne, Ne.symm hne]
  have hne2 : metricKey s2 n ≠ metricKey s n := metricKey_inj_left s2 s n hs
  have hne3 : metricKey s n2 ≠ metricKey s n := metricKey_inj_right s n2 n hn
  refine ⟨⟨?_, ?_⟩, ⟨?_, ?_, ?_⟩, ⟨?_, ?_, ?_⟩⟩
  · rw [hsame _ hc1]
    rfl
  · rw [hsame _ hc1]
    simp [lookupKey]
  · rw [hdiff _ s2 n hc1 hne2]
    rfl
  · rw [hdiff _ s2 n hc1 hne2]
    simp [lookupKey]
  · rw [hdiff _ s2 n hc1 hne2]
    simp [lookupKey, Ne.symm hne2]
  · rw [hdiff _ s n2 hc1 hne3]
    rfl
  · rw [hdiff _ s n2 hc1 hne3]
    simp [lookupKey]
  · rw [hdiff _ s n2 hc1 hne3]
    simp [lookupKey, Ne.symm hne3]

theorem count_idempotent_distinct_witness :
    (("b" : String) ≠ "a" ∧ ("y" : String) ≠ "x") ∧
    (((Count (Count (NewMetrics "ns") "a" "x" "hh" false) "a" "x" "hh" false).Counters.length = 1 ∧
      lookupKey (metricKey "a" "x")
        (Count (Count (NewMetrics "ns") "a" "x" "hh" false) "a" "x" "hh" false).Counters
        = some 2) ∧
    ((Count (Count (NewMetrics "ns") "a" "x" "hh" false) "b" "x" "hh" false).Counters.length = 2 ∧
      lookupKey (metricKey "a" "x")
        (Count (Count (NewMetrics "ns") "a" "x" "hh" false) "b" "x" "hh" false).Counters
        = some 1 ∧
      lookupKey (metricKey "b" "x")
        (Count (Count (NewMetrics "ns") "a" "x" "hh" false) "b" "x" "hh" false).Counters
        = some 1) ∧
    ((Count (Count (NewMetrics "ns") "a" "x" "hh" false) "a" "y" "hh" false).Counters.length = 2 ∧
      lookupKey (metricKey "a" "x")
        (Count (Count (NewMetrics "ns") "a" "x" "hh" false) "a" "y" "hh" false).Counters
        = some 1 ∧
      lookupKey (metricKey "a" "y")
        (Count (Count (NewMetrics "ns") "a" "x" "hh" false) "a" "y" "hh" false).Counters
        = some 1)) :=
  ⟨⟨by decide, by decide⟩,
   count_idempotent_distinct "ns" "a" "x" "hh" "b" "y" (by decide) (by decide)⟩

/-- Claim C7: repeated `CountLabels` calls with the same (subsystem, name) but
different label-value tuples keep a single pool entry holding one shared
backend vector (the same `vecId`, and `nextId` shows only one vector was ever
constructed), and each call increments its own series of that vector. -/
theorem countLabels_shared_vector (ns s n h : String) (ls vs1 vs2 : List String)
    (hv : vs1 ≠ vs2) :
    (CountLabels (CountLabels (NewMetrics ns) s n h ls vs1 false) s n h ls vs2
        false).CounterVecs
      = [(metricKey s n, ⟨0, ls, [(vs1, 1), (vs2, 1)]⟩)] ∧
    (CountLabels (CountLabels (NewMetrics ns) s n h ls vs1 false) s n h ls vs2
        false).CounterVecs.length = 1 ∧
    (CountLabels (CountLabels (NewMetrics ns) s n h ls vs1 false) s n h ls vs2
        false).nextId = 1 := by
  have hc1 : (CountLabels (NewMetrics ns) s n h ls vs1 false).CounterVecs
      = [(metricKey s n, ⟨0, ls, [(vs1, 1)]⟩)] := by
    norm_num [CountLabels, countLabelsWritePhase, NewMetrics, lookupKey, setKey, updateKey,
      incSeries]
  have hid1 : (CountLabels (NewMetrics ns) s n h ls vs1 false).nextId = 1 := by
    norm_num [CountLabels, countLabelsWritePhase, NewMetrics, lookupKey, setKey, updateKey]
  have hgen : ∀ m : MetricsState, m.CounterVecs = [(metricKey s n, ⟨0, ls, [(vs1, 1)]⟩)] →
      (CountLabels m s n h ls vs2 false).CounterVecs
        = [(metricKey s n, ⟨0, ls, [(vs1, 1), (vs2, 1)]⟩)] := by
    intro m hm
    norm_num [CountLabels, hm, lookupKey, updateKey, incSeries, hv]
  have hgenId : ∀ m : MetricsState, m.CounterVecs = [(metricKey s n, ⟨0, ls, [(vs1, 1)]⟩)] →
      (CountLabels m s n h ls vs2 false).nextId = m.nextId := by
    intro m hm
    simp [CountLabels, hm, lookupKey]
  refine ⟨hgen _ hc1, ?_, ?_⟩
  · rw [hgen _ hc1]
    rfl
  · rw [hgenId _ hc1, hid1]

theorem countLabels_shared_vector_witness :
    (["v1"] : List String) ≠ ["v2"] ∧
    ((CountLabels (CountLabels (NewMetrics "ns") "s" "n" "h" ["l"] ["v1"] false) "s" "n" "h"
        ["l"] ["v2"] false).CounterVecs
      = [(metricKey "s" "n", ⟨0, ["l"], [(["v1"], 1), (["v2"], 1)]⟩)] ∧
    (CountLabels (CountLabels (NewMetrics "ns") "s" "n" "h" ["l"] ["v1"] false) "s" "n" "h"
        ["l"] ["v2"] false).CounterVecs.length = 1 ∧
    (CountLabels (CountLabels (NewMetrics "ns") "s" "n" "h" ["l"] ["v1"] false) "s" "n" "h"
        ["l"] ["v2"] false).nextId = 1) :=
  ⟨by decide, countLabels_shared_vector "ns" "s" "n" "h" ["l"] ["v1"] ["v2"] (by decide)⟩

/-- Claim C8: `SetGauge` is get-or-create-and-set: after every call the gauge stored
under the key holds the supplied value (also when the gauge already existed),
and the pool grows by one entry exactly when the key was previously absent. -/
theorem setGauge_sets_value (m : MetricsState) (v : ℚ) (s n h : String) :
    lookupKey (metricKey s n) (SetGauge m v s n h false).Gauges = some v ∧
    (SetGauge m v s n h false).Gauges.length =
      (if (lookupKey (metricKey s n) m.Gauges).isSome then m.Gauges.length
       else m.Gauges.length + 1) := by
  cases hl : lookupKey (metricKey s n) m.Gauges with
  | some g =>
    constructor
    · simp [SetGauge, hl, lookupKey_updateKey_self]
    · simp [SetGauge, hl, length_updateKey]
  | none =>
    constructor
    · simp [SetGauge, setGaugeWritePhase, hl, lookupKey_updateKey_self, lookupKey_setKey_self]
    · simp [SetGauge, setGaugeWritePhase, hl, length_updateKey, length_setKey]

/-- Claim C9: the key construction is not injective — `Count "a" "b/c"` and
`Count "a/b" "c"` are distinct argument pairs that produce the same pool key
"a/b/c" and therefore share one pool entry, whose counter reaches 2 after the
two calls. -/
theorem key_collision_slash :
    metricKey "a" "b/c" = metricKey "a/b" "c" ∧
    (("a", "b/c") : String × String) ≠ ("a/b", "c") ∧
    (Count (Count (NewMetrics "ns") "a" "b/c" "help" false) "a/b" "c" "help"
        false).Counters = [("a/b/c", 2)] := by
  refine ⟨rfl, by decide, ?_⟩
  have hk1 : metricKey "a" "b/c" = "a/b/c" := rfl
  have hk2 : metricKey "a/b" "c" = "a/b/c" := rfl
  have hc1 : (Count (NewMetrics "ns") "a" "b/c" "help" false).Counters = [("a/b/c", 1)] := by
    norm_num [Count, countWritePhase, NewMetrics, lookupKey, setKey, updateKey, hk1]
  have h2 : ∀ m : MetricsState, m.Counters = [("a/b/c", 1)] →
      (Count m "a/b" "c" "help" false).Counters = [("a/b/c", 2)] := by
    intro m hm
    norm_num [Count, hm, lookupKey, updateKey, hk2]
  exact h2 _ hc1

/-- Claim C6 counterexample: the pair creation is not atomic in every reachable
registry state: on a fresh key, when the summary's `MustRegister` succeeds and
the histogram's `MustRegister` then fails, the call panics leaving the key
present in the summary pool and absent from the histogram pool, refuting the
claimed iff. -/
theorem histogram_pair_broken_on_partial_failure :
    (lookupKey "s/n"
      (AddHistogram (NewMetrics "ns") "s" "n" "h" false true).1.Summaries).isSome = true ∧
    (lookupKey "s/n"
      (AddHistogram (NewMetrics "ns") "s" "n" "h" false true).1.Histograms).isSome = false ∧
    (AddHistogram (NewMetrics "ns") "s" "n" "h" false true).2 = .error () := by
  refine ⟨rfl, rfl, rfl⟩

/-- Claim C6 amended: on every histogram get-or-create call whose two backend
registrations succeed — and in every registry state reachable by calls with
succeeding registrations — the returned handle's key is "subsystem/name", its
histogram and summary references are non-nil and are exactly the pool entries
stored under that key, and a key is in the summary pool iff it is in the
histogram pool; whereas when the histogram's `MustRegister` fails after the
summary succeeded, the call leaves the key installed in the summary pool with
the histogram pool untouched. -/
theorem histogram_summary_paired (ns : String) (ops : List Op) (s n h : String) (b : List ℚ)
    (st : MetricsState) (mh : MetricsHistogram)
    (heq : addHistogramWithBuckets (runOps (NewMetrics ns) ops) s n h b false false
      = (st, .ok mh)) :
    mh.Key = metricKey s n ∧
    mh.hist.isSome = true ∧ mh.sum.isSome = true ∧
    lookupKey (metricKey s n) st.Histograms = mh.hist ∧
    lookupKey (metricKey s n) st.Summaries = mh.sum ∧
    (∀ k, (lookupKey k st.Summaries).isSome = (lookupKey k st.Histograms).isSome) ∧
    (∀ m' : MetricsState, lookupKey (metricKey s n) m'.Summaries = none →
      (lookupKey (metricKey s n)
        (addHistogramWithBuckets m' s n h b false true).1.Summaries).isSome = true ∧
      lookupKey (metricKey s n)
        (addHistogramWithBuckets m' s n h b false true).1.Histograms
        = lookupKey (metricKey s n) m'.Histograms) := by
  have hpartial : ∀ m' : MetricsState, lookupKey (metricKey s n) m'.Summaries = none →
      (lookupKey (metricKey s n)
        (addHistogramWithBuckets m' s n h b false true).1.Summaries).isSome = true ∧
      lookupKey (metricKey s n)
        (addHistogramWithBuckets m' s n h b false true).1.Histograms
        = lookupKey (metricKey s n) m'.Histograms := by
    intro m' hm'
    constructor
    · simp [addHistogramWithBuckets, addHistogramWritePhase, hm', lookupKey_setKey_self]
    · simp [addHistogramWithBuckets, addHistogramWritePhase, hm']
  have hinv := stateInv_runOps (NewMetrics ns) ops (stateInv_NewMetrics ns)
  set M := runOps (NewMetrics ns) ops with hM
  cases hl : lookupKey (metricKey s n) M.Summaries with
  | some c =>
    have hok : addHistogramWithBuckets M s n h b false false =
        (M, .ok (⟨metricKey s n, lookupKey (metricKey s n) M.Histograms, some c⟩ :
          MetricsHistogram)) := by
      simp [addHistogramWithBuckets, hl]
    rw [hok] at heq
    simp only [Prod.mk.injEq, Except.ok.injEq] at heq
    obtain ⟨h1, h2⟩ := heq
    subst h1
    subst h2
    have hh := hinv.2 (metricKey s n)
    simp only [poolHas, hl] at hh
    refine ⟨rfl, hh.symm, rfl, rfl, hl, ?_, hpartial⟩
    intro k
    have := hinv.2 k
    simpa [poolHas] using this
  | none =>
    have hok : addHistogramWithBuckets M s n h b false false =
        ({ M with
            Summaries := setKey (metricKey s n) M.nextId M.Summaries
            Histograms := setKey (metricKey s n) (M.nextId + 1) M.Histograms
            nextId := M.nextId + 1 + 1
            regLog := M.regLog ++
              [⟨PoolKind.summaries, metricKey s n, n ++ "_summary", true⟩,
               ⟨PoolKind.histograms, metricKey s n, n, true⟩] },
          .ok (⟨metricKey s n, some (M.nextId + 1), some M.nextId⟩ :
            MetricsHistogram)) := by
      simp [addHistogramWithBuckets, addHistogramWritePhase, Except.map, hl]
    rw [hok] at heq
    simp only [Prod.mk.injEq, Except.ok.injEq] at heq
    obtain ⟨h1, h2⟩ := heq
    subst h1
    subst h2
    refine ⟨rfl, rfl, rfl, lookupKey_setKey_self _ _ _, lookupKey_setKey_self _ _ _,
      ?_, hpartial⟩
    intro k
    by_cases hk : k = metricKey s n
    · subst hk
      simp [lookupKey_setKey_self]
    · have := hinv.2 k
      simp only [poolHas] at this
      simpa [lookupKey_setKey_ne _ _ _ _ hk] using this

theorem histogram_summary_paired_witness :
    pairedWitnessHandle.Key = metricKey "s1" "n1" ∧
    pairedWitnessHandle.hist.isSome = true ∧ pairedWitnessHandle.sum.isSome = true ∧
    lookupKey (metricKey "s1" "n1") pairedWitnessState.Histograms = pairedWitnessHandle.hist ∧
    lookupKey (metricKey "s1" "n1") pairedWitnessState.Summaries = pairedWitnessHandle.sum ∧
    (∀ k, (lookupKey k pairedWitnessState.Summaries).isSome
      = (lookupKey k pairedWitnessState.Histograms).isSome) ∧
    ((lookupKey (metricKey "s1" "n1")
        (addHistogramWithBuckets (NewMetrics "ns") "s1" "n1" "h1" [] false
          true).1.Summaries).isSome = true ∧
      lookupKey (metricKey "s1" "n1")
        (addHistogramWithBuckets (NewMetrics "ns") "s1" "n1" "h1" [] false
          true).1.Histograms
        = lookupKey (metricKey "s1" "n1") (NewMetrics "ns").Histograms) :=
  have H := histogram_summary_paired "ns" [] "s1" "n1" "h1" [] pairedWitnessState
    pairedWitnessHandle rfl
  ⟨H.1, H.2.1, H.2.2.1, H.2.2.2.1, H.2.2.2.2.1, H.2.2.2.2.2.1,
   H.2.2.2.2.2.2 (NewMetrics "ns") rfl⟩

/-- Claim C10: on a fresh key, the histogram get-or-create registers its paired
summary with the backend under the modified name `name ++ "_summary"` while the
histogram keeps `name`, and the summary-vector get-or-create likewise registers
under `name ++ "_summary"`; the pool key and the handle key stay
"subsystem/name" in both cases. -/
theorem summary_backend_name_suffix (m : MetricsState) (s n h : String)
    (ls lvs : List String)
    (h1 : lookupKey (metricKey s n) m.Summaries = none)
    (h2 : lookupKey (metricKey s n) m.SummaryVecs = none) :
    (∃ st mh, AddHistogram m s n h false false = (st, .ok mh) ∧
      st.regLog = m.regLog ++
        [⟨PoolKind.summaries, metricKey s n, n ++ "_summary", true⟩,
         ⟨PoolKind.histograms, metricKey s n, n, true⟩] ∧
      mh.Key = metricKey s n ∧
      (lookupKey (metricKey s n) st.Summaries).isSome = true) ∧
    (∃ st sv, AddSummaryVec m s n h ls lvs false = .ok (st, sv) ∧
      st.regLog = m.regLog ++
        [⟨PoolKind.summaryVecs, metricKey s n, n ++ "_summary", true⟩] ∧
      sv.Key = metricKey s n ∧
      (lookupKey (metricKey s n) st.SummaryVecs).isSome = true) := by
  constructor
  · have hok : AddHistogram m s n h false false =
        ({ m with
            Summaries := setKey (metricKey s n) m.nextId m.Summaries
            Histograms := setKey (metricKey s n) (m.nextId + 1) m.Histograms
            nextId := m.nextId + 1 + 1
            regLog := m.regLog ++
              [⟨PoolKind.summaries, metricKey s n, n ++ "_summary", true⟩,
               ⟨PoolKind.histograms, metricKey s n, n, true⟩] },
          .ok (⟨metricKey s n, some (m.nextId + 1), some m.nextId⟩ :
            MetricsHistogram)) := by
      simp [AddHistogram, addHistogramWithBuckets, addHistogramWritePhase, Except.map, h1]
    exact ⟨_, _, hok, rfl, rfl, by simp [lookupKey_setKey_self]⟩
  · have hok : AddSummaryVec m s n h ls lvs false =
        .ok ({ m with
            SummaryVecs := setKey (metricKey s n) m.nextId m.SummaryVecs
            nextId := m.nextId + 1
            regLog := m.regLog ++
              [⟨PoolKind.summaryVecs, metricKey s n, n ++ "_summary", true⟩] },
          (⟨metricKey s n, ls, lvs, m.nextId⟩ : SummaryVec)) := by
      simp [AddSummaryVec, addSummaryVecWithObjectives, addSummaryVecWritePhase, h2]
    exact ⟨_, _, hok, rfl, rfl, by simp [lookupKey_setKey_self]⟩

theorem summary_backend_name_suffix_witness :
    lookupKey (metricKey "s" "n") (NewMetrics "ns").Summaries = none ∧
    lookupKey (metricKey "s" "n") (NewMetrics "ns").SummaryVecs = none ∧
    ((∃ st mh, AddHistogram (NewMetrics "ns") "s" "n" "h" false false = (st, .ok mh) ∧
      st.regLog = (NewMetrics "ns").regLog ++
        [⟨PoolKind.summaries, metricKey "s" "n", "n" ++ "_summary", true⟩,
         ⟨PoolKind.histograms, metricKey "s" "n", "n", true⟩] ∧
      mh.Key = metricKey "s" "n" ∧
      (lookupKey (metricKey "s" "n") st.Summaries).isSome = true) ∧
    (∃ st sv, AddSummaryVec (NewMetrics "ns") "s" "n" "h" ["l"] ["v"] false = .ok (st, sv) ∧
      st.regLog = (NewMetrics "ns").regLog ++
        [⟨PoolKind.summaryVecs, metricKey "s" "n", "n" ++ "_summary", true⟩] ∧
      sv.Key = metricKey "s" "n" ∧
      (lookupKey (metricKey "s" "n") st.SummaryVecs).isSome = true)) :=
  ⟨rfl, rfl, summary_backend_name_suffix (NewMetrics "ns") "s" "n" "h" ["l"] ["v"] rfl rfl⟩

/-- Claim C1 counterexample: entered with the key "a/b" already present in its pool
(as a competing writer would leave it), the write-lock section of the
histogram-vector get-or-create does not re-check the key and does not skip
construction: it registers again, raising the registration count for
(histogramVecs, "a/b") from 1 to 2. -/
theorem histVec_writePhase_no_recheck :
    (lookupKey "a/b" histVecPresentState.HistogramVecs).isSome = true ∧
    regCount histVecPresentState.regLog PoolKind.histogramVecs "a/b" = 1 ∧
    (addHistogramVecWritePhase histVecPresentState "a" "b" "h" [] [] false).map
      (fun x => regCount x.1.regLog PoolKind.histogramVecs "a/b") = .ok 2 := by
  refine ⟨rfl, rfl, rfl⟩

/-- Claim C1 amended: over every sequential sequence of get-or-create calls, at most
one backend registration call is made per (pool, key); the counter, gauge,
counter-vector and histogram/summary write-lock sections re-check the key under
the write lock and skip construction when it is already present (the
histogram-vector and summary-vector sections do not re-check, as the
counterexample shows, and sequentially rely on the read-lock check alone). -/
theorem registration_at_most_once_and_recheck :
    (∀ (ns : String) (ops : List Op) (p : PoolKind) (k : Key),
      regCount (runOps (NewMetrics ns) ops).regLog p k ≤ 1) ∧
    (∀ (m : MetricsState) (s n h : String) (rf : Bool),
      (lookupKey (metricKey s n) m.Counters).isSome = true →
      countWritePhase m s n h rf = m) ∧
    (∀ (m : MetricsState) (s n h : String) (rf : Bool),
      (lookupKey (metricKey s n) m.Counters).isSome = true →
      increaseCounterWritePhase m s n h rf = m) ∧
    (∀ (m : MetricsState) (s n h : String) (rf : Bool),
      (lookupKey (metricKey s n) m.Gauges).isSome = true →
      setGaugeWritePhase m s n h rf = m) ∧
    (∀ (m : MetricsState) (s n h : String) (ls : List String) (rf : Bool),
      (lookupKey (metricKey s n) m.CounterVecs).isSome = true →
      countLabelsWritePhase m s n h ls rf = m) ∧
    (∀ (m : MetricsState) (s n h : String) (b : List ℚ) (h0 : Option Nat)
      (rfS rfH : Bool) (x : Nat), lookupKey (metricKey s n) m.Summaries = some x →
      addHistogramWritePhase m s n h b h0 rfS rfH = (m, .ok (some x, h0))) := by
  refine ⟨?_, ?_, ?_, ?_, ?_, ?_⟩
  · intro ns ops p k
    have hinv := stateInv_runOps (NewMetrics ns) ops (stateInv_NewMetrics ns)
    rw [hinv.1 p k]
    split <;> omega
  · intro m s n h rf hl
    obtain ⟨x, hx⟩ := Option.isSome_iff_exists.mp hl
    simp [countWritePhase, hx]
  · intro m s n h rf hl
    obtain ⟨x, hx⟩ := Option.isSome_iff_exists.mp hl
    simp [increaseCounterWritePhase, hx]
  · intro m s n h rf hl
    obtain ⟨x, hx⟩ := Option.isSome_iff_exists.mp hl
    simp [setGaugeWritePhase, hx]
  · intro m s n h ls rf hl
    obtain ⟨x, hx⟩ := Option.isSome_iff_exists.mp hl
    simp [countLabelsWritePhase, hx]
  · intro m s n h b h0 rfS rfH x hx
    simp [addHistogramWritePhase, hx]

theorem registration_at_most_once_and_recheck_witness :
    regCount (runOps (NewMetrics "ns") [Op.count "a" "b" "h"]).regLog
      PoolKind.counters "a/b" ≤ 1 ∧
    countWritePhase recheckWitnessState "a" "b" "h" false = recheckWitnessState ∧
    increaseCounterWritePhase recheckWitnessState "a" "b" "h" false = recheckWitnessState ∧
    setGaugeWritePhase recheckWitnessState "a" "b" "h" false = recheckWitnessState ∧
    countLabelsWritePhase recheckWitnessState "a" "b" "h" ["l"] false = recheckWitnessState ∧
    addHistogramWritePhase recheckWitnessState "a" "b" "h" [] none false false
      = (recheckWitnessState, .ok (some 1, none)) :=
  ⟨registration_at_most_once_and_recheck.1 "ns" [Op.count "a" "b" "h"] PoolKind.counters "a/b",
   registration_at_most_once_and_recheck.2.1 recheckWitnessState "a" "b" "h" false (by decide),
   registration_at_most_once_and_recheck.2.2.1 recheckWitnessState "a" "b" "h" false
     (by decide),
   registration_at_most_once_and_recheck.2.2.2.1 recheckWitnessState "a" "b" "h" false
     (by decide),
   registration_at_most_once_and_recheck.2.2.2.2.1 recheckWitnessState "a" "b" "h" ["l"] false
     (by decide),
   registration_at_most_once_and_recheck.2.2.2.2.2 recheckWitnessState "a" "b" "h" [] none
     false false 1 (by decide)⟩

/-- Claim C2 counterexample: a failing backend registration is fatal for the scalar
histogram/summary get-or-create (it uses `MustRegister`), while the vector
`CountLabels` get-or-create swallows the failure, logs a warning and still
installs a usable vector — the opposite of the claimed scalar/vector split. -/
theorem scalar_histogram_registration_fatal :
    addHistogramWithBuckets (NewMetrics "ns") "s" "n" "h" [] true true
      = (NewMetrics "ns", .error ()) ∧
    (CountLabels (NewMetrics "ns") "s" "n" "h" ["l"] ["v"] true).warnings
      = ["MetricsCounterLabelRegistrationFailed"] ∧
    (lookupKey (metricKey "s" "n")
      (CountLabels (NewMetrics "ns") "s" "n" "h" ["l"] ["v"]
        true).CounterVecs).isSome = true := by
  refine ⟨rfl, rfl, rfl⟩

/-- Claim C2 amended: registration failures are non-fatal (a warning is logged and a
usable, installed instrument is still available) exactly for the counter,
gauge and counter-vector get-or-creates, and fatal (the call is aborted by
`MustRegister`) exactly for the histogram/summary pair, the histogram-vector
and the summary-vector get-or-creates. -/
theorem registration_fatality_by_kind :
    (∀ (m : MetricsState) (s n h : String),
      lookupKey (metricKey s n) m.Counters = none →
      (Count m s n h true).warnings = m.warnings ++ ["MetricsCounterRegistrationFailed"] ∧
      lookupKey (metricKey s n) (Count m s n h true).Counters = some 1) ∧
    (∀ (m : MetricsState) (s n h : String) (i : Int),
      lookupKey (metricKey s n) m.Counters = none →
      (IncreaseCounter m s n h i true).warnings
        = m.warnings ++ ["MetricsIncreaseCounterRegistrationFailed"] ∧
      (lookupKey (metricKey s n) (IncreaseCounter m s n h i true).Counters).isSome = true) ∧
    (∀ (m : MetricsState) (v : ℚ) (s n h : String),
      lookupKey (metricKey s n) m.Gauges = none →
      (SetGauge m v s n h true).warnings = m.warnings ++ ["MetricsSetGaugeFailed"] ∧
      lookupKey (metricKey s n) (SetGauge m v s n h true).Gauges = some v) ∧
    (∀ (m : MetricsState) (s n h : String) (ls vs : List String),
      lookupKey (metricKey s n) m.CounterVecs = none →
      (CountLabels m s n h ls vs true).warnings
        = m.warnings ++ ["MetricsCounterLabelRegistrationFailed"] ∧
      (lookupKey (metricKey s n)
        (CountLabels m s n h ls vs true).CounterVecs).isSome = true) ∧
    (∀ (m : MetricsState) (s n h : String) (b : List ℚ) (rfH : Bool),
      lookupKey (metricKey s n) m.Summaries = none →
      addHistogramWithBuckets m s n h b true rfH = (m, .error ())) ∧
    (∀ (m : MetricsState) (s n h : String) (b : List ℚ),
      lookupKey (metricKey s n) m.Summaries = none →
      (addHistogramWithBuckets m s n h b false true).2 = .error ()) ∧
    (∀ (m : MetricsState) (s n h : String) (ls lvs : List String) (b : List ℚ),
      lookupKey (metricKey s n) m.HistogramVecs = none →
      addHistogramVecWithBuckets m s n h ls lvs b true = .error ()) ∧
    (∀ (m : MetricsState) (s n h : String) (ls lvs : List String) (os : List (ℚ × ℚ)),
      lookupKey (metricKey s n) m.SummaryVecs = none →
      addSummaryVecWithObjectives m s n h ls lvs os true = .error ()) := by
  refine ⟨?_, ?_, ?_, ?_, ?_, ?_, ?_, ?_⟩
  · intro m s n h hl
    constructor
    · simp [Count, countWritePhase, hl]
    · simp [Count, countWritePhase, hl, lookupKey_updateKey_self, lookupKey_setKey_self]
  · intro m s n h i hl
    constructor
    · simp [IncreaseCounter, increaseCounterWritePhase, hl]
    · simp [IncreaseCounter, increaseCounterWritePhase, hl, isSome_lookupKey_updateKey,
        lookupKey_setKey_self]
  · intro m v s n h hl
    constructor
    · simp [SetGauge, setGaugeWritePhase, hl]
    · simp [SetGauge, setGaugeWritePhase, hl, lookupKey_updateKey_self, lookupKey_setKey_self]
  · intro m s n h ls vs hl
    constructor
    · simp [CountLabels, countLabelsWritePhase, hl]
    · simp [CountLabels, countLabelsWritePhase, hl, isSome_lookupKey_updateKey,
        lookupKey_setKey_self]
  · intro m s n h b rfH hl
    simp [addHistogramWithBuckets, addHistogramWritePhase, Except.map, hl]
  · intro m s n h b hl
    simp [addHistogramWithBuckets, addHistogramWritePhase, Except.map, hl]
  · intro m s n h ls lvs b hl
    simp [addHistogramVecWithBuckets, addHistogramVecWritePhase, hl]
  · intro m s n h ls lvs os hl
    simp [addSummaryVecWithObjectives, addSummaryVecWritePhase, hl]

theorem registration_fatality_by_kind_witness :
    (lookupKey (metricKey "s" "n") (NewMetrics "ns").Counters = none ∧
      ((Count (NewMetrics "ns") "s" "n" "h" true).warnings
          = (NewMetrics "ns").warnings ++ ["MetricsCounterRegistrationFailed"] ∧
        lookupKey (metricKey "s" "n")
          (Count (NewMetrics "ns") "s" "n" "h" true).Counters = some 1)) ∧
    ((IncreaseCounter (NewMetrics "ns") "s" "n" "h" 3 true).warnings
        = (NewMetrics "ns").warnings ++ ["MetricsIncreaseCounterRegistrationFailed"] ∧
      (lookupKey (metricKey "s" "n")
        (IncreaseCounter (NewMetrics "ns") "s" "n" "h" 3 true).Counters).isSome = true) ∧
    ((SetGauge (NewMetrics "ns") 7 "s" "n" "h" true).warnings
        = (NewMetrics "ns").warnings ++ ["MetricsSetGaugeFailed"] ∧
      lookupKey (metricKey "s" "n")
        (SetGauge (NewMetrics "ns") 7 "s" "n" "h" true).Gauges = some 7) ∧
    ((CountLabels (NewMetrics "ns") "s" "n" "h" ["l"] ["v"] true).warnings
        = (NewMetrics "ns").warnings ++ ["MetricsCounterLabelRegistrationFailed"] ∧
      (lookupKey (metricKey "s" "n")
        (CountLabels (NewMetrics "ns") "s" "n" "h" ["l"] ["v"]
          true).CounterVecs).isSome = true) ∧
    addHistogramWithBuckets (NewMetrics "ns") "s" "n" "h" [] true false
      = (NewMetrics "ns", .error ()) ∧
    (addHistogramWithBuckets (NewMetrics "ns") "s" "n" "h" [] false true).2 = .error () ∧
    addHistogramVecWithBuckets (NewMetrics "ns") "s" "n" "h" ["l"] ["v"] [] true
      = .error () ∧
    addSummaryVecWithObjectives (NewMetrics "ns") "s" "n" "h" ["l"] ["v"] [] true
      = .error () :=
  ⟨⟨rfl, registration_fatality_by_kind.1 (NewMetrics "ns") "s" "n" "h" rfl⟩,
   registration_fatality_by_kind.2.1 (NewMetrics "ns") "s" "n" "h" 3 rfl,
   registration_fatality_by_kind.2.2.1 (NewMetrics "ns") 7 "s" "n" "h" rfl,
   registration_fatality_by_kind.2.2.2.1 (NewMetrics "ns") "s" "n" "h" ["l"] ["v"] rfl,
   registration_fatality_by_kind.2.2.2.2.1 (NewMetrics "ns") "s" "n" "h" [] false rfl,
   registration_fatality_by_kind.2.2.2.2.2.1 (NewMetrics "ns") "s" "n" "h" [] rfl,
   registration_fatality_by_kind.2.2.2.2.2.2.1 (NewMetrics "ns") "s" "n" "h" ["l"] ["v"]
     [] rfl,
   registration_fatality_by_kind.2.2.2.2.2.2.2 (NewMetrics "ns") "s" "n" "h" ["l"] ["v"]
     [] rfl⟩

end GoMetrics
